import Mathlib

/-!
Verification of the batch-scan orchestrator and quarantine manager of
`antivirus.py` (the InfraRed antivirus GUI).  The Python code is shallowly
embedded: pure fragments become Lean functions, the scan loop becomes a
trace-producing function, filesystem and process-table state are passed
explicitly, and external collaborators (the detection DLL, the operating
system, the clock) are parameters of the embedded functions.
-/

/-- Running scan statistics, mirroring the Python class `ScanStats`
(`antivirus.py` lines 125-135): six counters all initialised to zero. -/
structure ScanStats where
  total_scanned : Nat
  clean_files : Nat
  malicious_files : Nat
  suspicious_files : Nat
  errors : Nat
  quarantined : Nat
  deriving DecidableEq, Repr

/-- Fresh statistics, as built by `ScanStats.__init__`. -/
def ScanStats.init : ScanStats := ⟨0, 0, 0, 0, 0, 0⟩

/-- One statistics update of `BatchScanThread.run` (lines 196-204 for the
detailed branch, identically lines 214-222 for the basic branch):
`total_scanned` always increments, and exactly one bucket increments,
chosen by the adapter status code (0 clean; 1 or 2 malicious; 3 suspicious;
anything else an error). -/
def updateStats (s : ScanStats) (code : Int) : ScanStats :=
  let s1 : ScanStats := { s with total_scanned := s.total_scanned + 1 }
  if code = 0 then { s1 with clean_files := s1.clean_files + 1 }
  else if code = 1 ∨ code = 2 then { s1 with malicious_files := s1.malicious_files + 1 }
  else if code = 3 then { s1 with suspicious_files := s1.suspicious_files + 1 }
  else { s1 with errors := s1.errors + 1 }

/-- Payload of one `stats_update` signal emission (`antivirus.py` lines
224-230): the five counters the thread packs into a dict. -/
structure StatsDict where
  total : Nat
  clean : Nat
  malicious : Nat
  suspicious : Nat
  errors : Nat
  deriving DecidableEq, Repr

/-- The dict emitted for a given `ScanStats` (lines 224-230). -/
def statsDictOf (s : ScanStats) : StatsDict :=
  ⟨s.total_scanned, s.clean_files, s.malicious_files, s.suspicious_files, s.errors⟩

/-- Events emitted by `BatchScanThread.run`, in emission order: the per-item
result signals (`result_detailed` and/or `result_msg`), the `stats_update`
snapshot, the `progress` index, the stop message, and the final `finished`
signal. -/
inductive ScanEvent where
  | resultMsgEvt (i : Nat)
  | resultDetailedEvt (i : Nat) (code : Int)
  | statsUpdateEvt (d : StatsDict)
  | progressEvt (i : Nat)
  | stoppedMsgEvt
  | finishedEvt
  deriving DecidableEq, Repr

/-- The scan loop of `BatchScanThread.run` (`antivirus.py` lines 184-233),
as a trace of emitted events.  The detection adapter is external, so the
status codes it would return are an input list (one code per file of
`file_list`); `i` is the 1-based index of `enumerate(self.file_list, 1)`;
`stop` gives the value of the `_stop_requested` flag as observed at the
top-of-loop check of iteration `i` (the only point where the flag is read,
making cancellation cooperative). -/
def runLoop (useDetailed : Bool) (stop : Nat → Bool) :
    List Int → Nat → ScanStats → List ScanEvent
  | [], _, _ => [ScanEvent.finishedEvt]
  | code :: rest, i, stats =>
    if stop i then
      ScanEvent.stoppedMsgEvt :: [ScanEvent.finishedEvt]
    else
      let stats1 := updateStats stats code
      (if useDetailed then
        [ScanEvent.resultDetailedEvt i code, ScanEvent.resultMsgEvt i]
      else
        [ScanEvent.resultMsgEvt i]) ++
      [ScanEvent.statsUpdateEvt (statsDictOf stats1), ScanEvent.progressEvt i] ++
      runLoop useDetailed stop rest (i + 1) stats1

/-- Full trace of one `BatchScanThread.run` call, starting from the fresh
`ScanStats` built in `BatchScanThread.__init__` (line 178) and index 1. -/
def batchScanRun (useDetailed : Bool) (stop : Nat → Bool) (codes : List Int) :
    List ScanEvent :=
  runLoop useDetailed stop codes 1 ScanStats.init

/-- The `stats_update` payloads of a trace, in emission order. -/
def statsSnapshots (tr : List ScanEvent) : List StatsDict :=
  tr.filterMap fun e => match e with
    | ScanEvent.statsUpdateEvt d => some d
    | _ => none

/-- The `progress` payloads of a trace, in emission order. -/
def progressValues (tr : List ScanEvent) : List Nat :=
  tr.filterMap fun e => match e with
    | ScanEvent.progressEvt i => some i
    | _ => none

/-- The adapter codes of the items the loop actually completes, starting
from boundary `i`: the loop consumes codes until the stop flag first reads
true at an iteration boundary. -/
def scannedFrom (stop : Nat → Bool) : List Int → Nat → List Int
  | [], _ => []
  | code :: rest, i =>
    if stop i then [] else code :: scannedFrom stop rest (i + 1)

/-- Number of items one run completes. -/
def scannedCount (stop : Nat → Bool) (codes : List Int) : Nat :=
  (scannedFrom stop codes 1).length

/-- The sequence of statistics snapshots generated by folding
`updateStats` over a code list: one snapshot per completed item. -/
def statsTrail (stats : ScanStats) : List Int → List StatsDict
  | [] => []
  | code :: rest =>
    statsDictOf (updateStats stats code) :: statsTrail (updateStats stats code) rest

/-- One directory's contribution to the enumeration of a capped scan:
the inner `for name in files` loop of `full_system_scan` (`antivirus.py`
lines 1128-1132; the same shape appears in `scan_drive` lines 1164-1168,
`scan_all_drives` lines 1208-1213 and `scan_usb` lines 1272-1276) appends
each file and executes `break` as soon as `len(file_list) > cap`.  The
`break` leaves only this inner loop. -/
def appendDirFiles (cap : Nat) (acc : List String) : List String → List String
  | [] => acc
  | f :: rest =>
    if cap < (acc ++ [f]).length then acc ++ [f]
    else appendDirFiles cap (acc ++ [f]) rest

/-- The outer `for root, _, files in os.walk(...)` loop of the capped
scans: after the inner break the walk continues with the next directory.
`dirs` lists, per visited directory, the filenames `os.walk` yields
there. -/
def walkFiles (cap : Nat) (dirs : List (List String)) : List String :=
  dirs.foldl (fun acc files => appendDirFiles cap acc files) []

/-- GUI state relevant to `AntivirusGUI._start_batch_scan` (lines
1288-1311).  `running` models whether a previously started
`BatchScanThread` is still alive; `scanButtons` the common enabled state of
the six scan-triggering buttons (lines 1298-1303); `stopButton` the stop
button (line 1304); `jobsStarted` counts `BatchScanThread(...).start()`
calls (lines 1306-1311). -/
structure GuiScanState where
  running : Bool
  scanButtons : Bool
  stopButton : Bool
  jobsStarted : Nat
  deriving DecidableEq, Repr

/-- `AntivirusGUI._start_batch_scan` (lines 1288-1311): an empty file list
returns immediately (line 1289); otherwise the method unconditionally
disables the scan buttons, enables the stop button, constructs a fresh
`BatchScanThread` (overwriting `self.scan_thread`) and starts it.  No
branch inspects whether a previous job is still running. -/
def start_batch_scan (st : GuiScanState) (files : List String) : GuiScanState :=
  if files.isEmpty then st
  else
    { running := true, scanButtons := false, stopButton := true,
      jobsStarted := st.jobsStarted + 1 }

/-- `AntivirusGUI.clear_quarantine` (lines 1692-1703) after the user
confirms: one `try` block wraps the whole `for filename in
os.listdir(QUARANTINE_DIR)` loop of `os.remove` calls, so a raising removal
exits the loop into the single `except` dialog.  `removeFails` models which
removals the OS rejects; the result pairs the files actually deleted with
the first failing file (if any). -/
def clear_quarantine (removeFails : String → Bool) :
    List String → List String × Option String
  | [] => ([], none)
  | f :: rest =>
    if removeFails f then ([], some f)
    else
      let r := clear_quarantine removeFails rest
      (f :: r.1, r.2)

/-- ASCII lower-casing of one character, modelling Python `str.lower` on
the character sets the program compares (ASCII process names, hex
digits). -/
def lowerChar (c : Char) : Char :=
  if 65 ≤ c.toNat ∧ c.toNat ≤ 90 then Char.ofNat (c.toNat + 32) else c

/-- Python `str.lower`. -/
def pyLower (s : String) : String := ⟨s.data.map lowerChar⟩

/-- Whitespace test for Python `str.strip`. -/
def isSpaceChar (c : Char) : Bool :=
  c == ' ' || c == '\t' || c == '\n' || c == '\r'

/-- Python `str.strip`: drop leading and trailing whitespace. -/
def pyStrip (s : String) : String :=
  ⟨((s.data.dropWhile isSpaceChar).reverse.dropWhile isSpaceChar).reverse⟩

/-- Outcome of `AntivirusGUI.add_hash` (lines 1756-1786): one of the early
warning returns, or the single adapter call
`engine.add_hash(hash, threat, severity, is_sha256)` (line 1776). -/
inductive AddHashOutcome where
  | noCapability
  | emptyInput
  | wrongLength (expected : Nat)
  | adapterCalled (hashHex threat : String) (severity : Int) (isSha256 : Bool)
  deriving DecidableEq, Repr

/-- `AntivirusGUI.add_hash` (lines 1756-1786): warns and returns when the
DLL lacks the capability (lines 1757-1759); reads the hash field stripped
and lower-cased (line 1761) and the threat name stripped (line 1762);
warns and returns on empty input (lines 1766-1768); then validates only
the LENGTH of the hash — 64 characters when the type combo says SHA256,
else 32 (lines 1770-1773) — and otherwise calls the adapter. -/
def add_hash (hasAddHash : Bool) (hashField threatField : String)
    (severity : Int) (isSha256 : Bool) : AddHashOutcome :=
  if !hasAddHash then AddHashOutcome.noCapability
  else
    let hashValue := pyLower (pyStrip hashField)
    let threatName := pyStrip threatField
    if hashValue.isEmpty || threatName.isEmpty then AddHashOutcome.emptyInput
    else
      let expected : Nat := if isSha256 then 64 else 32
      if hashValue.length ≠ expected then AddHashOutcome.wrongLength expected
      else AddHashOutcome.adapterCalled hashValue threatName severity isSha256

/-- Hexadecimal-string predicate in the SPEC's words ("exactly 32 hex
characters for MD5 and exactly 64 hex characters for SHA256"): every
character is a hexadecimal digit.  The code never tests this; the
definition exists only to compare the code's validation against the
spec. -/
def specHexString (s : String) : Bool :=
  s.data.all fun c => ("0123456789abcdefABCDEF".data).contains c

/-- Arithmetic modulus of 32-bit machine words. -/
def M32 : Nat := 4294967296

/-- 32-bit wrapping addition. -/
def add32 (a b : Nat) : Nat := (a + b) % M32

/-- 32-bit left rotation. -/
def rotl32 (x n : Nat) : Nat :=
  ((x * 2 ^ n) % M32 + x % M32 / 2 ^ (32 - n)) % M32

/-- 32-bit bitwise complement. -/
def not32 (x : Nat) : Nat := 4294967295 - x % M32

/-- MD5 round function F (RFC 1321). -/
def md5F (b c d : Nat) : Nat := Nat.lor (Nat.land b c) (Nat.land (not32 b) d)

/-- MD5 round function G. -/
def md5G (b c d : Nat) : Nat := Nat.lor (Nat.land d b) (Nat.land (not32 d) c)

/-- MD5 round function H. -/
def md5H (b c d : Nat) : Nat := Nat.xor b (Nat.xor c d)

/-- MD5 round function I. -/
def md5I (b c d : Nat) : Nat := Nat.xor c (Nat.lor b (not32 d))

/-- MD5 sine-derived constant table K. -/
def md5K : List Nat := [
    3614090360, 3905402710, 606105819, 3250441966, 4118548399, 1200080426, 2821735955, 4249261313,
    1770035416, 2336552879, 4294925233, 2304563134, 1804603682, 4254626195, 2792965006, 1236535329,
    4129170786, 3225465664, 643717713, 3921069994, 3593408605, 38016083, 3634488961, 3889429448,
    568446438, 3275163606, 4107603335, 1163531501, 2850285829, 4243563512, 1735328473, 2368359562,
    4294588738, 2272392833, 1839030562, 4259657740, 2763975236, 1272893353, 4139469664, 3200236656,
    681279174, 3936430074, 3572445317, 76029189, 3654602809, 3873151461, 530742520, 3299628645,
    4096336452, 1126891415, 2878612391, 4237533241, 1700485571, 2399980690, 4293915773, 2240044497,
    1873313359, 4264355552, 2734768916, 1309151649, 4149444226, 3174756917, 718787259, 3951481745]

/-- MD5 per-round shift table. -/
def md5S : List Nat := [
    7, 12, 17, 22, 7, 12, 17, 22, 7, 12, 17, 22, 7, 12, 17, 22,
    5, 9, 14, 20, 5, 9, 14, 20, 5, 9, 14, 20, 5, 9, 14, 20,
    4, 11, 16, 23, 4, 11, 16, 23, 4, 11, 16, 23, 4, 11, 16, 23,
    6, 10, 15, 21, 6, 10, 15, 21, 6, 10, 15, 21, 6, 10, 15, 21]

/-- The four MD5 chaining words. -/
structure MD5State where
  a : Nat
  b : Nat
  c : Nat
  d : Nat
  deriving DecidableEq, Repr

/-- MD5 initial chaining state. -/
def md5InitState : MD5State := ⟨1732584193, 4023233417, 2562383102, 271733878⟩

/-- One of the 64 MD5 mixing steps over a 16-word message block `w`. -/
def md5Mix (w : List Nat) (st : MD5State) (i : Nat) : MD5State :=
  let f :=
    if i < 16 then md5F st.b st.c st.d
    else if i < 32 then md5G st.b st.c st.d
    else if i < 48 then md5H st.b st.c st.d
    else md5I st.b st.c st.d
  let g :=
    if i < 16 then i
    else if i < 32 then (5 * i + 1) % 16
    else if i < 48 then (3 * i + 5) % 16
    else (7 * i) % 16
  let tmp := (f + st.a + md5K.getD i 0 + w.getD g 0) % M32
  ⟨st.d, add32 st.b (rotl32 tmp (md5S.getD i 0)), st.b, st.c⟩

/-- MD5 compression of one 512-bit block. -/
def md5Compress (st : MD5State) (w : List Nat) : MD5State :=
  let r := (List.range 64).foldl (md5Mix w) st
  ⟨add32 st.a r.a, add32 st.b r.b, add32 st.c r.c, add32 st.d r.d⟩

/-- Little-endian grouping of bytes into 32-bit words. -/
def leWords : List Nat → List Nat
  | b0 :: b1 :: b2 :: b3 :: rest =>
    (b0 + 256 * b1 + 65536 * b2 + 16777216 * b3) :: leWords rest
  | _ => []

/-- Split a byte list into 64-byte blocks (`fuel` bounds the recursion by
the list length). -/
def chunks64Fuel : Nat → List Nat → List (List Nat)
  | 0, _ => []
  | _, [] => []
  | fuel + 1, b :: rest =>
    ((b :: rest).take 64) :: chunks64Fuel fuel ((b :: rest).drop 64)

/-- Split a byte list into 64-byte blocks. -/
def chunks64 (l : List Nat) : List (List Nat) := chunks64Fuel l.length l

/-- A natural number as eight little-endian bytes. -/
def le64Bytes (n : Nat) : List Nat :=
  [n % 256, n / 256 % 256, n / 65536 % 256, n / 16777216 % 256,
   n / 4294967296 % 256, n / 1099511627776 % 256,
   n / 281474976710656 % 256, n / 72057594037927936 % 256]

/-- MD5 message padding: a 0x80 byte, zeros to 56 mod 64, then the bit
length as a 64-bit little-endian count. -/
def md5Pad (msg : List Nat) : List Nat :=
  msg ++ [128] ++ List.replicate ((56 + 64 - (msg.length + 1) % 64) % 64) 0 ++
    le64Bytes (msg.length * 8)

/-- Lower-case hexadecimal digit. -/
def hexDigit (n : Nat) : Char :=
  "0123456789abcdef".data.getD n '0'

/-- One byte as two hexadecimal characters. -/
def byteHex (b : Nat) : List Char := [hexDigit (b / 16), hexDigit (b % 16)]

/-- A 32-bit word as four little-endian bytes. -/
def word4LE (w : Nat) : List Nat :=
  [w % 256, w / 256 % 256, w / 65536 % 256, w / 16777216 % 256]

/-- `hashlib.md5(msg).hexdigest()`: the full MD5 of a byte list, as the
32-character lower-case hex string.  `hashlib` is a Python-stdlib
collaborator of `quarantine_file`; this is a direct embedding of the RFC
1321 algorithm it implements. -/
def md5hex (msg : List Nat) : String :=
  let st := (chunks64 (md5Pad msg)).foldl
    (fun st chunk => md5Compress st (leWords chunk)) md5InitState
  ⟨((word4LE st.a ++ word4LE st.b ++ word4LE st.c ++ word4LE st.d).map byteHex).flatten⟩

/-- UTF-8 encoding of one character (Python `str.encode('utf-8')`). -/
def utf8Bytes (c : Char) : List Nat :=
  let n := c.toNat
  if n < 128 then [n]
  else if n < 2048 then [192 + n / 64, 128 + n % 64]
  else if n < 65536 then [224 + n / 4096, 128 + n / 64 % 64, 128 + n % 64]
  else [240 + n / 262144, 128 + n / 4096 % 64, 128 + n / 64 % 64, 128 + n % 64]

/-- UTF-8 bytes of a string. -/
def strUtf8 (s : String) : List Nat := (s.data.map utf8Bytes).flatten

/-- `hashlib.md5(name_part.encode('utf-8')).hexdigest()[:8]`
(`antivirus.py` line 1418). -/
def md5hex8 (s : String) : String := ⟨(md5hex (strUtf8 s)).data.take 8⟩

/-- Index of the last occurrence of a character. -/
def lastIndexOf (c : Char) : List Char → Option Nat
  | [] => none
  | x :: rest =>
    match lastIndexOf c rest with
    | some i => some (i + 1)
    | none => if x = c then some 0 else none

/-- `os.path.splitext` on a bare filename (`antivirus.py` line 1414): the
extension starts at the last dot, except that a run of leading dots never
starts an extension. -/
def splitext (filename : String) : String × String :=
  match lastIndexOf '.' filename.data with
  | none => (filename, "")
  | some i =>
    if (filename.data.take i).all (fun c => c == '.') then (filename, "")
    else (⟨filename.data.take i⟩, ⟨filename.data.drop i⟩)

/-- `os.path.basename` (`antivirus.py` line 1410): the part of a path after
the last separator (Windows `ntpath` treats both slash shapes as
separators). -/
def basename (path : String) : String :=
  ⟨(path.data.reverse.takeWhile (fun c => !(c == '/' || c == '\\'))).reverse⟩

/-- The quarantine filename derivation of `AntivirusGUI.quarantine_file`
(`antivirus.py` lines 1409-1420):
`f"{timestamp}_{safe_name}{ext_part}"` with
`safe_name = hashlib.md5(name_part.encode('utf-8')).hexdigest()[:8]`, where
`(name_part, ext_part) = os.path.splitext(os.path.basename(filepath))` and
`timestamp = datetime.now().strftime('%Y%m%d_%H%M%S')` (second
granularity). -/
def quarantine_filename (timestamp filepath : String) : String :=
  timestamp ++ ("_" ++
    (md5hex8 (splitext (basename filepath)).1 ++ (splitext (basename filepath)).2))

/-- Filesystem contents as an association list from absolute path to byte
list.  Lock state lives in the removal oracle of `quarantine_file`, not
here. -/
abbrev Fs : Type := List (String × List Nat)

/-- Read a file (`os.path.exists` / `open(..., 'rb').read()`). -/
def fsGet (fs : Fs) (p : String) : Option (List Nat) :=
  (fs.find? (fun e => e.1 == p)).map (fun e => e.2)

/-- Write a file whole (`open(..., 'wb').write(data)`). -/
def fsSet (fs : Fs) (p : String) (data : List Nat) : Fs :=
  (p, data) :: fs.filter (fun e => !(e.1 == p))

/-- Delete a file (`os.remove`). -/
def fsRemove (fs : Fs) (p : String) : Fs :=
  fs.filter (fun e => !(e.1 == p))

/-- One operating-system process as `psutil` reports it: pid, name and the
paths of its open file handles. -/
structure Proc where
  pid : Nat
  pname : String
  openFiles : List String
  deriving DecidableEq, Repr

/-- The deny-list of critical OS processes that are never terminated
(`antivirus.py` line 1443). -/
def criticalProcessNames : List String :=
  ["system", "csrss.exe", "smss.exe", "wininit.exe"]

/-- Whether `force_close_file_handles` terminates process `p` when called
for `target` (lines 1435-1451): iff one of the process's open-file paths
equals the lower-cased absolute target path (line 1439; `target` is taken
already absolute, `os.path.abspath` is the identity on it) and its name is
not on the critical deny-list (the `continue` at line 1444). -/
def shouldKill (target : String) (p : Proc) : Bool :=
  p.openFiles.any (fun f => pyLower f == pyLower target) &&
    !(criticalProcessNames.contains (pyLower p.pname))

/-- `force_close_file_handles` (lines 1426-1462): the killed processes,
the surviving process table, and the returned `closed_count > 0` flag. -/
def force_close_file_handles (target : String) (procs : List Proc) :
    List Proc × List Proc × Bool :=
  (procs.filter (fun p => shouldKill target p),
   procs.filter (fun p => !shouldKill target p),
   0 < (procs.filter (fun p => shouldKill target p)).length)

/-- Outcome of one `os.remove(filepath)` call, decided by the OS
environment: success, a `PermissionError` (lock contention), or any other
exception. -/
inductive RemoveOutcome where
  | ok
  | permErr
  | otherErr
  deriving DecidableEq, Repr

/-- `max_retries = 5` (`antivirus.py` line 1465). -/
def max_retries : Nat := 5

/-- State left by the retry loop of `quarantine_file`: the Python locals
`success` and whether the final `raise e` of line 1517 fired, plus the
filesystem, quarantine store, process table, the processes killed and the
1-based attempt numbers at which `force_close_file_handles` ran. -/
structure QuarLoopRes where
  success : Bool
  raised : Bool
  fs : Fs
  store : Fs
  procs : List Proc
  killed : List Proc
  fca : List Nat
  deriving DecidableEq, Repr

/-- The retry loop of `quarantine_file` (lines 1464-1517): each iteration
re-reads the source file, (re)writes the quarantine copy under `qname`,
then attempts `os.remove(filepath)`, whose outcome on attempt `a`
(0-based) is `ro a`.  On success the loop breaks with `success = True`
(lines 1488-1490).  A `PermissionError` on a non-final attempt backs off
and, from the 3rd attempt on (`attempt >= 2`, line 1501), first calls
`force_close_file_handles`; on the final attempt it breaks with
`success = False` (lines 1506-1509).  Any other exception retries on
non-final attempts and is re-raised from the final one (line 1517).
`remaining` counts the attempts `range(max_retries)` still to run. -/
def quarantineLoop (ro : Nat → RemoveOutcome) (filepath qname : String) :
    Nat → Nat → Fs → Fs → List Proc → List Proc → List Nat → QuarLoopRes
  | 0, _, fs, store, procs, killed, fca =>
    ⟨false, false, fs, store, procs, killed, fca⟩
  | remaining + 1, attempt, fs, store, procs, killed, fca =>
    let data := (fsGet fs filepath).getD []
    let store1 := fsSet store qname data
    match ro attempt with
    | RemoveOutcome.ok =>
      ⟨true, false, fsRemove fs filepath, store1, procs, killed, fca⟩
    | RemoveOutcome.permErr =>
      if attempt < max_retries - 1 then
        if 2 ≤ attempt then
          quarantineLoop ro filepath qname remaining (attempt + 1) fs store1
            (force_close_file_handles filepath procs).2.1
            (killed ++ (force_close_file_handles filepath procs).1)
            (fca ++ [attempt + 1])
        else
          quarantineLoop ro filepath qname remaining (attempt + 1) fs store1
            procs killed fca
      else ⟨false, false, fs, store1, procs, killed, fca⟩
    | RemoveOutcome.otherErr =>
      if attempt < max_retries - 1 then
        quarantineLoop ro filepath qname remaining (attempt + 1) fs store1
          procs killed fca
      else ⟨false, true, fs, store1, procs, killed, fca⟩

/-- The sidecar metadata record written at lines 1544-1552. -/
structure QuarantineRecord where
  original_path : String
  original_filename : String
  threat_name : String
  quarantine_time : String
  original_deleted : Bool
  deriving DecidableEq, Repr

/-- Observable outcome of one `AntivirusGUI.quarantine_file` call. -/
structure QuarantineResult where
  fs : Fs
  store : Fs
  record : Option QuarantineRecord
  raised : Bool
  notFound : Bool
  procs : List Proc
  killed : List Proc
  fca : List Nat
  deriving DecidableEq, Repr

/-- `AntivirusGUI.quarantine_file` (lines 1399-1565).  A missing source
file warns and returns without a record (lines 1405-1407,
`notFound = true`).  Otherwise the quarantine filename is derived (lines
1409-1420) and the retry loop runs; if it re-raised a non-permission
exception the outer `except` shows the critical dialog and no sidecar is
written (`raised = true`); in every other outcome — including five failed
permission-denied removals — the sidecar record is written (lines
1543-1552) with `original_deleted = success`, and no error reaches the
caller.  The user dialogs of lines 1519-1541 and 1557-1562 are
presentation only. -/
def quarantine_file (fs store : Fs) (procs : List Proc)
    (ro : Nat → RemoveOutcome) (filepath threat_name timestamp : String) :
    QuarantineResult :=
  match fsGet fs filepath with
  | none => ⟨fs, store, none, false, true, procs, [], []⟩
  | some _ =>
    let r := quarantineLoop ro filepath (quarantine_filename timestamp filepath)
      max_retries 0 fs store procs [] []
    if r.raised then
      ⟨r.fs, r.store, none, true, false, r.procs, r.killed, r.fca⟩
    else
      ⟨r.fs, r.store,
        some ⟨filepath, basename filepath, threat_name, timestamp, r.success⟩,
        false, false, r.procs, r.killed, r.fca⟩

/-- Verdict codes that `add_result_to_table` treats as threats
(`if status in [1, 2, 3]`, `antivirus.py` line 1343). -/
def isThreatCode (c : Int) : Bool := c == 1 || c == 2 || c == 3

/-- Global actions of the scan worker thread and the GUI consumer.
`scanItem i c` is the worker's adapter call on item `i` (1-based) with
result code `c`; `emitResult i` its `result_detailed.emit`;
`handleResult i` the GUI running `add_result_to_table` on that event;
`quarantineCall i` the `self.quarantine_file(...)` call inside it
(line 1353). -/
inductive BatchAction where
  | scanItem (i : Nat) (code : Int)
  | emitResult (i : Nat)
  | handleResult (i : Nat)
  | quarantineCall (i : Nat)
  deriving DecidableEq, Repr

/-- Two-thread state of a running batch scan (`use_detailed = True`, stop
flag never set, auto-quarantine checkbox `autoQ`).  `BatchScanThread.run`
executes in its own QThread while `add_result_to_table` runs in the GUI
thread; the connection of `result_detailed` to `add_result_to_table`
(line 1308) is a cross-thread Qt `AutoConnection` and therefore QUEUED:
`emit` appends the event to the receiver thread's queue and `run`
continues immediately.  `queue` holds the emitted but not yet handled
result indices in order; `scanned` is the worker's loop position; `trace`
records the global order of actions. -/
structure BatchSys where
  codes : List Int
  autoQ : Bool
  scanned : Nat
  queue : List Nat
  trace : List BatchAction
  deriving DecidableEq, Repr

/-- State at scan start. -/
def initBatchSys (codes : List Int) (autoQ : Bool) : BatchSys :=
  ⟨codes, autoQ, 0, [], []⟩

/-- One worker iteration of `BatchScanThread.run` (lines 184-233, detailed
branch): scan the next item and emit its result event into the GUI
thread's queue; a finished worker does nothing.  The `stats_update` and
`progress` emissions are irrelevant to quarantine and omitted here (they
are covered by `runLoop`). -/
def workerStep (s : BatchSys) : BatchSys :=
  if s.scanned < s.codes.length then
    { s with
      scanned := s.scanned + 1,
      queue := s.queue ++ [s.scanned + 1],
      trace := s.trace ++
        [BatchAction.scanItem (s.scanned + 1) (s.codes.getD s.scanned (-1)),
         BatchAction.emitResult (s.scanned + 1)] }
  else s

/-- The GUI thread draining one queued `result_detailed` event: it runs
`add_result_to_table` (lines 1322-1353), which — when the status code is
in {1, 2, 3} and the auto-quarantine checkbox is checked — calls
`quarantine_file` synchronously in the GUI thread (lines 1352-1353); with
an empty queue there is nothing to do. -/
def consumerStep (s : BatchSys) : BatchSys :=
  match s.queue with
  | [] => s
  | i :: rest =>
    { s with
      queue := rest,
      trace := s.trace ++ [BatchAction.handleResult i] ++
        (if s.autoQ && isThreatCode (s.codes.getD (i - 1) (-1)) then
          [BatchAction.quarantineCall i]
        else []) }

/-- A scheduler interleaving of the two threads: `true` runs the worker,
`false` the GUI consumer. -/
def execSched (codes : List Int) (autoQ : Bool) (sched : List Bool) : BatchSys :=
  sched.foldl (fun s b => if b then workerStep s else consumerStep s)
    (initBatchSys codes autoQ)

/-- Reachability invariant of the two-thread batch-scan system: queued and
handled indices lie among the scanned items, every scanned index has its
scan action in the trace, and a quarantine call occurs exactly for handled
result events whose code is a threat while the checkbox is on. -/
def SysInv (s : BatchSys) : Prop :=
  (∀ i ∈ s.queue, 1 ≤ i ∧ i ≤ s.scanned) ∧
    (∀ i, BatchAction.handleResult i ∈ s.trace → 1 ≤ i ∧ i ≤ s.scanned) ∧
    (∀ i, 1 ≤ i → i ≤ s.scanned →
      BatchAction.scanItem i (s.codes.getD (i - 1) (-1)) ∈ s.trace) ∧
    (∀ i, BatchAction.quarantineCall i ∈ s.trace →
      s.autoQ = true ∧ isThreatCode (s.codes.getD (i - 1) (-1)) = true ∧
        BatchAction.handleResult i ∈ s.trace) ∧
    (∀ i, BatchAction.handleResult i ∈ s.trace → s.autoQ = true →
      isThreatCode (s.codes.getD (i - 1) (-1)) = true →
      BatchAction.quarantineCall i ∈ s.trace)

theorem updateStats_total (s : ScanStats) (c : Int) :
    (updateStats s c).total_scanned = s.total_scanned + 1 := by
  unfold updateStats
  split
  · rfl
  · split
    · rfl
    · split
      · rfl
      · rfl

theorem updateStats_sum (s : ScanStats) (c : Int)
    (h : s.clean_files + s.malicious_files + s.suspicious_files + s.errors =
      s.total_scanned) :
    (updateStats s c).clean_files + (updateStats s c).malicious_files +
      (updateStats s c).suspicious_files + (updateStats s c).errors =
      (updateStats s c).total_scanned := by
  unfold updateStats
  split
  · simp only []
    omega
  · split
    · simp only []
      omega
    · split
      · simp only []
        omega
      · simp only []
        omega

theorem statsSnapshots_append (a b : List ScanEvent) :
    statsSnapshots (a ++ b) = statsSnapshots a ++ statsSnapshots b := by
  simp [statsSnapshots]

theorem statsSnapshots_cons (e : ScanEvent) (tr : List ScanEvent) :
    statsSnapshots (e :: tr) =
      (match e with
        | ScanEvent.statsUpdateEvt d => [d]
        | _ => []) ++ statsSnapshots tr := by
  cases e <;> simp [statsSnapshots, List.filterMap_cons]

theorem progressValues_append (a b : List ScanEvent) :
    progressValues (a ++ b) = progressValues a ++ progressValues b := by
  simp [progressValues]

theorem progressValues_cons (e : ScanEvent) (tr : List ScanEvent) :
    progressValues (e :: tr) =
      (match e with
        | ScanEvent.progressEvt i => [i]
        | _ => []) ++ progressValues tr := by
  cases e <;> simp [progressValues, List.filterMap_cons]

theorem statsSnapshots_runLoop (u : Bool) (stop : Nat → Bool) (codes : List Int) :
    ∀ (i : Nat) (stats : ScanStats),
      statsSnapshots (runLoop u stop codes i stats) =
        statsTrail stats (scannedFrom stop codes i) := by
  induction codes with
  | nil =>
    intro i stats
    simp [runLoop, scannedFrom, statsSnapshots, statsTrail]
  | cons c rest ih =>
    intro i stats
    by_cases h : stop i = true
    · simp [runLoop, scannedFrom, h, statsSnapshots, statsTrail]
    · have h' : stop i = false := by simpa using h
      cases u <;>
        simp [runLoop, scannedFrom, h', statsTrail, statsSnapshots_append,
          statsSnapshots_cons, ih]

theorem statsTrail_length (l : List Int) :
    ∀ stats : ScanStats, (statsTrail stats l).length = l.length := by
  induction l with
  | nil => intro stats; rfl
  | cons c rest ih => intro stats; simp [statsTrail, ih]

theorem statsTrail_get (l : List Int) :
    ∀ (stats : ScanStats) (k : Nat) (d : StatsDict),
      (statsTrail stats l).get? k = some d →
      d = statsDictOf (List.foldl updateStats stats (l.take (k + 1))) := by
  induction l with
  | nil =>
    intro stats k d h
    simp [statsTrail] at h
  | cons c rest ih =>
    intro stats k d h
    cases k with
    | zero =>
      simp [statsTrail] at h
      simp [← h]
    | succ k =>
      simp only [statsTrail, List.get?_cons_succ] at h
      have := ih (updateStats stats c) k d h
      simpa [List.take_succ_cons] using this

theorem foldl_updateStats_total (l : List Int) :
    ∀ s : ScanStats, (List.foldl updateStats s l).total_scanned =
      s.total_scanned + l.length := by
  induction l with
  | nil => intro s; simp
  | cons c rest ih =>
    intro s
    rw [List.foldl_cons, ih, updateStats_total]
    simp
    omega

theorem foldl_updateStats_sum (l : List Int) :
    ∀ s : ScanStats,
      s.clean_files + s.malicious_files + s.suspicious_files + s.errors =
        s.total_scanned →
      (List.foldl updateStats s l).clean_files +
        (List.foldl updateStats s l).malicious_files +
        (List.foldl updateStats s l).suspicious_files +
        (List.foldl updateStats s l).errors =
        (List.foldl updateStats s l).total_scanned := by
  induction l with
  | nil => intro s h; simpa using h
  | cons c rest ih =>
    intro s h
    rw [List.foldl_cons]
    exact ih _ (updateStats_sum s c h)

/-- C1: at every emitted `stats_update` snapshot of one batch scan run
(`BatchScanThread.run`, lines 184-233) the bucket counts satisfy
`clean + malicious + suspicious + errors = total`; the k-th snapshot
(0-based) has `total = k + 1`, which is the number of items completed when
it was emitted, and the snapshot equals the aggregate of exactly the first
`k + 1` completed items' verdict codes. -/
theorem c1_stats_snapshot_invariant (u : Bool) (stop : Nat → Bool)
    (codes : List Int) (k : Nat) (d : StatsDict)
    (h : (statsSnapshots (batchScanRun u stop codes)).get? k = some d) :
    d.clean + d.malicious + d.suspicious + d.errors = d.total ∧
      d.total = k + 1 ∧
      d = statsDictOf (List.foldl updateStats ScanStats.init
        ((scannedFrom stop codes 1).take (k + 1))) := by
  rw [batchScanRun, statsSnapshots_runLoop] at h
  have hd := statsTrail_get _ _ _ _ h
  have hk : k < (scannedFrom stop codes 1).length := by
    by_contra hk
    push_neg at hk
    rw [List.get?_eq_none.mpr (by rw [statsTrail_length]; exact hk)] at h
    exact Option.noConfusion h
  have htake : ((scannedFrom stop codes 1).take (k + 1)).length = k + 1 := by
    rw [List.length_take]
    omega
  refine ⟨?_, ?_, hd⟩
  · rw [hd]
    exact foldl_updateStats_sum _ _ rfl
  · rw [hd]
    show (List.foldl updateStats ScanStats.init _).total_scanned = k + 1
    rw [foldl_updateStats_total, htake]
    simp [ScanStats.init]

/-- Witness for C1 at a concrete job: three files with verdict codes
clean, malicious-signature, suspicious; the third snapshot is
`{total 3, clean 1, malicious 1, suspicious 1, errors 0}`. -/
theorem c1_stats_snapshot_invariant_witness :
    (statsSnapshots (batchScanRun true (fun _ => false) [0, 1, 3])).get? 2 =
        some ⟨3, 1, 1, 1, 0⟩ ∧
      ((1 : Nat) + 1 + 1 + 0 = 3 ∧ (3 : Nat) = 2 + 1 ∧
        (⟨3, 1, 1, 1, 0⟩ : StatsDict) =
          statsDictOf (List.foldl updateStats ScanStats.init
            ((scannedFrom (fun _ => false) [0, 1, 3] 1).take (2 + 1)))) := by
  refine ⟨by decide, ?_⟩
  exact c1_stats_snapshot_invariant true (fun _ => false) [0, 1, 3] 2
    ⟨3, 1, 1, 1, 0⟩ (by decide)

theorem progressValues_runLoop (u : Bool) (stop : Nat → Bool) (codes : List Int) :
    ∀ (i : Nat) (stats : ScanStats),
      progressValues (runLoop u stop codes i stats) =
        List.range' i (scannedFrom stop codes i).length := by
  induction codes with
  | nil =>
    intro i stats
    simp [runLoop, scannedFrom, progressValues]
  | cons c rest ih =>
    intro i stats
    by_cases h : stop i = true
    · simp [runLoop, scannedFrom, h, progressValues]
    · have h' : stop i = false := by simpa using h
      cases u <;>
        simp [runLoop, scannedFrom, h', progressValues_append, progressValues_cons,
          ih, List.range'_succ]

theorem scannedFrom_length_le (stop : Nat → Bool) (codes : List Int) :
    ∀ i, (scannedFrom stop codes i).length ≤ codes.length := by
  induction codes with
  | nil => intro i; simp [scannedFrom]
  | cons c rest ih =>
    intro i
    by_cases h : stop i = true
    · simp [scannedFrom, h]
    · have h' : stop i = false := by simpa using h
      simp only [scannedFrom, h', Bool.false_eq_true, if_false, List.length_cons]
      exact Nat.succ_le_succ (ih (i + 1))

theorem scannedFrom_stop_false (stop : Nat → Bool) (codes : List Int) :
    ∀ i j, j < (scannedFrom stop codes i).length → stop (i + j) = false := by
  induction codes with
  | nil => intro i j h; simp [scannedFrom] at h
  | cons c rest ih =>
    intro i j h
    by_cases hs : stop i = true
    · simp [scannedFrom, hs] at h
    · have h' : stop i = false := by simpa using hs
      cases j with
      | zero => exact h'
      | succ j =>
        simp only [scannedFrom, h', Bool.false_eq_true, if_false,
          List.length_cons, Nat.succ_lt_succ_iff] at h
        have e : i + (j + 1) = (i + 1) + j := by omega
        rw [e]
        exact ih (i + 1) j h

theorem scannedFrom_stop_true (stop : Nat → Bool) (codes : List Int) :
    ∀ i, (scannedFrom stop codes i).length < codes.length →
      stop (i + (scannedFrom stop codes i).length) = true := by
  induction codes with
  | nil => intro i h; simp at h
  | cons c rest ih =>
    intro i h
    by_cases hs : stop i = true
    · simp only [scannedFrom, hs, if_true, List.length_nil, Nat.add_zero]
    · have h' : stop i = false := by simpa using hs
      simp only [scannedFrom, h', Bool.false_eq_true, if_false, List.length_cons,
        Nat.succ_lt_succ_iff] at h ⊢
      have e : i + ((scannedFrom stop rest (i + 1)).length + 1) =
          (i + 1) + (scannedFrom stop rest (i + 1)).length := by omega
      rw [e]
      exact ih (i + 1) h

theorem scannedFrom_take (stop : Nat → Bool) (codes : List Int) :
    ∀ i, scannedFrom stop codes i =
      codes.take (scannedFrom stop codes i).length := by
  induction codes with
  | nil => intro i; simp [scannedFrom]
  | cons c rest ih =>
    intro i
    by_cases hs : stop i = true
    · simp [scannedFrom, hs]
    · have h' : stop i = false := by simpa using hs
      simp only [scannedFrom, h', Bool.false_eq_true, if_false, List.length_cons,
        List.take_succ_cons, List.cons.injEq, true_and]
      exact ih (i + 1)

/-- C10: cooperative cancellation in `BatchScanThread` (`stop`, lines
181-182; `run`, lines 184-233).  The emitted progress indices are exactly
`1, …, m` where `m` is the number of items actually completed, so no emitted
progress index exceeds the completed count and no list position is scanned
twice; the completed items are precisely the prefix of the job up to the
first iteration boundary at which the stop flag reads true, so a flag set
during item `m` (observed true only at boundary `m + 1`) still lets item `m`
finish and be fully reported. -/
theorem c10_cooperative_stop (u : Bool) (stop : Nat → Bool) (codes : List Int) :
    progressValues (batchScanRun u stop codes) =
        List.range' 1 (scannedCount stop codes) ∧
      (progressValues (batchScanRun u stop codes)).Nodup ∧
      (∀ p ∈ progressValues (batchScanRun u stop codes),
        p ≤ scannedCount stop codes) ∧
      scannedCount stop codes ≤ codes.length ∧
      scannedFrom stop codes 1 = codes.take (scannedCount stop codes) ∧
      (∀ i, 1 ≤ i → i ≤ scannedCount stop codes → stop i = false) ∧
      (scannedCount stop codes < codes.length →
        stop (scannedCount stop codes + 1) = true) := by
  have hpv : progressValues (batchScanRun u stop codes) =
      List.range' 1 (scannedCount stop codes) :=
    progressValues_runLoop u stop codes 1 ScanStats.init
  refine ⟨hpv, ?_, ?_, scannedFrom_length_le stop codes 1, scannedFrom_take stop codes 1,
    ?_, ?_⟩
  · rw [hpv]
    apply List.nodup_range'
    omega
  · intro p hp
    rw [hpv] at hp
    have := (List.mem_range'_1).mp hp
    omega
  · intro i h1 h2
    have := scannedFrom_stop_false stop codes 1 (i - 1) (by
      show i - 1 < scannedCount stop codes
      omega)
    have e : 1 + (i - 1) = i := by omega
    rwa [e] at this
  · intro h
    have := scannedFrom_stop_true stop codes 1 h
    have e : 1 + (scannedFrom stop codes 1).length =
        (scannedFrom stop codes 1).length + 1 := by omega
    rw [e] at this
    exact this

/-- Witness for C10 at a concrete job of three files with the stop flag
first observed true at iteration boundary 3: exactly two items complete,
progress indices are `[1, 2]`, boundary 2 still read false, and the flag is
read true at the boundary after the last completed item. -/
theorem c10_cooperative_stop_witness :
    progressValues (batchScanRun true (fun i => decide (3 ≤ i)) [5, 0, 3]) =
        List.range' 1 (scannedCount (fun i => decide (3 ≤ i)) [5, 0, 3]) ∧
      (2 : Nat) ≤ scannedCount (fun i => decide (3 ≤ i)) [5, 0, 3] ∧
      (fun i => decide (3 ≤ i) : Nat → Bool) 2 = false ∧
      scannedCount (fun i => decide (3 ≤ i)) [5, 0, 3] <
        ([5, 0, 3] : List Int).length ∧
      (fun i => decide (3 ≤ i) : Nat → Bool)
        (scannedCount (fun i => decide (3 ≤ i)) [5, 0, 3] + 1) = true := by
  obtain ⟨h1, _, _, _, _, h6, h7⟩ :=
    c10_cooperative_stop true (fun i => decide (3 ≤ i)) [5, 0, 3]
  exact ⟨h1, by decide, h6 2 (by decide) (by decide), by decide, h7 (by decide)⟩

theorem appendDirFiles_length_below (cap : Nat) :
    ∀ (files acc : List String), acc.length ≤ cap →
      (appendDirFiles cap acc files).length =
        min (acc.length + files.length) (cap + 1) := by
  intro files
  induction files with
  | nil =>
    intro acc h
    simp only [appendDirFiles, List.length_nil, Nat.add_zero]
    omega
  | cons f rest ih =>
    intro acc h
    simp only [appendDirFiles]
    split
    · simp only [List.length_append, List.length_cons, List.length_nil] at *
      omega
    · rename_i hc
      simp only [List.length_append, List.length_cons, List.length_nil] at hc
      rw [ih (acc ++ [f]) (by simp; omega)]
      simp only [List.length_append, List.length_cons, List.length_nil]
      omega

theorem appendDirFiles_length_above (cap : Nat) (acc : List String) (f : String)
    (rest : List String) (h : cap < acc.length) :
    (appendDirFiles cap acc (f :: rest)).length = acc.length + 1 := by
  simp only [appendDirFiles]
  rw [if_pos (by simp; omega)]
  simp

/-- C3 (refuted by the code): the cap check `if len(file_list) > 10000:
break` of `full_system_scan` breaks only the inner per-directory loop, so
the enumerated file list reaches length 10001 inside the first visited
directory and keeps growing by one file per later directory.  A walk whose
first directory holds 10002 files and whose second holds one file yields
10002 enumerated files — the list exceeds the 10000 cap and grows again
after the cap has already been exceeded.  The same misplaced `break`
occurs for the 50000 caps (`scan_drive`, `scan_usb`) and the 100000 cap
(`scan_all_drives`). -/
theorem c3_cap_not_enforced :
    10000 < (walkFiles 10000 [List.replicate 10002 "a", ["b"]]).length ∧
      (walkFiles 10000 [List.replicate 10002 "a"]).length <
        (walkFiles 10000 [List.replicate 10002 "a", ["b"]]).length := by
  have h1 : (appendDirFiles 10000 [] (List.replicate 10002 "a")).length = 10001 := by
    rw [appendDirFiles_length_below 10000 (List.replicate 10002 "a") []
      (by simp only [List.length_nil]; omega)]
    simp only [List.length_nil, List.length_replicate]
    omega
  have h2 : (walkFiles 10000 [List.replicate 10002 "a", ["b"]]).length = 10002 := by
    simp only [walkFiles, List.foldl_cons, List.foldl_nil]
    rw [appendDirFiles_length_above 10000 _ "b" [] (by omega)]
    omega
  have h3 : (walkFiles 10000 [List.replicate 10002 "a"]).length = 10001 := by
    simp only [walkFiles, List.foldl_cons, List.foldl_nil]
    exact h1
  omega

/-- C6 counterexample: from a state whose job is still running
(`running = true`, buttons already in mid-scan configuration),
`_start_batch_scan` with a nonempty list is not a no-op — one more
`BatchScanThread` is constructed and started (`jobsStarted` goes from 1 to
2), so no state-machine rejection of a second concurrent job exists. -/
theorem c6_counterexample :
    start_batch_scan ⟨true, false, true, 1⟩ ["a"] ≠ ⟨true, false, true, 1⟩ ∧
      (start_batch_scan ⟨true, false, true, 1⟩ ["a"]).jobsStarted = 2 := by
  decide

/-- C6 amended: `_start_batch_scan` ignores only an empty file list; for a
nonempty list it always starts a fresh job — also from a state whose
previous job is still running — and the only concurrency guard it
establishes is caller-side button discipline (scan buttons disabled, stop
button enabled), not a state-machine rejection. -/
theorem c6_start_unconditional (st : GuiScanState) (files : List String) :
    (files = [] → start_batch_scan st files = st) ∧
      (files ≠ [] → start_batch_scan st files =
        ⟨true, false, true, st.jobsStarted + 1⟩) := by
  constructor
  · intro h
    subst h
    rfl
  · intro h
    have h' : files.isEmpty = false := by
      cases files with
      | nil => exact absurd rfl h
      | cons a l => rfl
    simp [start_batch_scan, h']

/-- Witness for the amended C6 at a busy concrete state. -/
theorem c6_start_unconditional_witness :
    (["a"] : List String) ≠ [] ∧
      start_batch_scan ⟨true, false, true, 1⟩ ["a"] = ⟨true, false, true, 2⟩ :=
  ⟨by decide, (c6_start_unconditional ⟨true, false, true, 1⟩ ["a"]).2 (by decide)⟩

/-- C7 counterexample: with three quarantine files of which only the
second removal fails, `clear_quarantine` deletes the first file, aborts at
the failure, and never deletes the third — whose removal would have
succeeded — and the outcome carries the single failing file, not an
aggregate failure count. -/
theorem c7_counterexample :
    clear_quarantine (fun f => f == "b") ["a", "b", "c"] = (["a"], some "b") ∧
      "c" ∉ (clear_quarantine (fun f => f == "b") ["a", "b", "c"]).1 ∧
      (fun f => f == "b") "c" = false := by
  decide

/-- C7 amended: `clear_quarantine` deletes exactly the longest prefix of
the listing on which removal succeeds and stops at the first failing file,
reporting that single failure in one dialog; files after the first failure
are not attempted and no aggregate failure count exists. -/
theorem c7_clear_stops_at_first_failure (removeFails : String → Bool)
    (files : List String) :
    clear_quarantine removeFails files =
      (files.takeWhile (fun f => !removeFails f),
        (files.dropWhile (fun f => !removeFails f)).head?) := by
  induction files with
  | nil => rfl
  | cons f rest ih =>
    by_cases h : removeFails f = true
    · simp [clear_quarantine, h, List.takeWhile_cons, List.dropWhile_cons]
    · have h' : removeFails f = false := by simpa using h
      simp [clear_quarantine, h', List.takeWhile_cons, List.dropWhile_cons, ih]

/-- C9 counterexample: a 32-character string of `z`s is not hexadecimal,
yet `add_hash` forwards it to the registration adapter — the claimed
"rejects any other input" (other than exact hex strings) fails, because
only the length is validated. -/
theorem c9_counterexample :
    add_hash true "zzzzzzzzzzzzzzzzzzzzzzzzzzzzzzzz" "EvilHash" 2 false =
        AddHashOutcome.adapterCalled "zzzzzzzzzzzzzzzzzzzzzzzzzzzzzzzz"
          "EvilHash" 2 false ∧
      specHexString "zzzzzzzzzzzzzzzzzzzzzzzzzzzzzzzz" = false := by
  decide

/-- C9 amended: validation is length-only.  With the capability present
and nonempty normalized inputs, `add_hash` calls the adapter exactly when
the normalized hash length equals 32 (MD5) resp. 64 (SHA256); any other
length — including 31, 33, 63 and 65 — is rejected without an adapter
call, but hex-ness is never checked, so any right-length string reaches
the adapter. -/
theorem c9_length_only_validation (hashField threatField : String)
    (severity : Int) (isSha256 : Bool)
    (hh : (pyLower (pyStrip hashField)).isEmpty = false)
    (ht : (pyStrip threatField).isEmpty = false) :
    ((pyLower (pyStrip hashField)).length = (if isSha256 then 64 else 32) →
      add_hash true hashField threatField severity isSha256 =
        AddHashOutcome.adapterCalled (pyLower (pyStrip hashField))
          (pyStrip threatField) severity isSha256) ∧
      ((pyLower (pyStrip hashField)).length ≠ (if isSha256 then 64 else 32) →
        add_hash true hashField threatField severity isSha256 =
          AddHashOutcome.wrongLength (if isSha256 then 64 else 32)) := by
  constructor <;> intro h <;> simp [add_hash, hh, ht, h]

/-- Witness for the amended C9: a 31-character MD5 candidate is rejected
with expected length 32 and no adapter call. -/
theorem c9_length_only_validation_witness :
    (pyLower (pyStrip "1234567890123456789012345678901")).isEmpty = false ∧
      (pyStrip "x").isEmpty = false ∧
      (pyLower (pyStrip "1234567890123456789012345678901")).length ≠ 32 ∧
      add_hash true "1234567890123456789012345678901" "x" 1 false =
        AddHashOutcome.wrongLength 32 := by
  refine ⟨by decide, by decide, by decide, ?_⟩
  exact (c9_length_only_validation "1234567890123456789012345678901" "x" 1 false
    (by decide) (by decide)).2 (by decide)

theorem string_append_data (a b : String) : (a ++ b).data = a.data ++ b.data := rfl

theorem append_left_inj (a b c d : String) (h : a ++ b = c ++ d)
    (hl : a.length = c.length) : a = c := by
  have hd : a.data ++ b.data = c.data ++ d.data := by
    have := congrArg String.data h
    simpa [string_append_data] using this
  have hdata : a.data = c.data := List.append_inj_left hd hl
  cases a
  cases c
  exact congrArg String.mk hdata

set_option maxRecDepth 10000

/-- C8 counterexample: two DISTINCT original paths that share the basename
`x.txt`, quarantined at the same second, derive the SAME quarantine
filename — the derivation (line 1419) reads only the
second-granularity timestamp, the md5 of the basename stem and the
extension, never the directory or the content, so the claimed collision
resistance across distinct originals sharing a basename fails (the second
copy overwrites the first in the store). -/
theorem c8_counterexample :
    quarantine_filename "20260101_120000" "C:/users/alice/x.txt" =
        quarantine_filename "20260101_120000" "C:/users/bob/x.txt" ∧
      ("C:/users/alice/x.txt" : String) ≠ "C:/users/bob/x.txt" ∧
      basename "C:/users/alice/x.txt" = basename "C:/users/bob/x.txt" := by
  refine ⟨by decide, by decide, by decide⟩

/-- C8 amended: quarantine filenames are collision-resistant only across
distinct timestamps: whenever the two `%Y%m%d_%H%M%S` timestamps differ
(they always have equal length), the derived filenames differ, whatever
the two original paths are; two distinct originals sharing a basename and
quarantined within the same second collide. -/
theorem c8_distinct_timestamps (ts1 ts2 p1 p2 : String)
    (hl : ts1.length = ts2.length) (hne : ts1 ≠ ts2) :
    quarantine_filename ts1 p1 ≠ quarantine_filename ts2 p2 := by
  intro h
  simp only [quarantine_filename] at h
  exact hne (append_left_inj _ _ _ _ h hl)

/-- Witness for the amended C8: quarantines of the same file one second
apart get distinct store filenames. -/
theorem c8_distinct_timestamps_witness :
    ("20260101_120000" : String).length = ("20260101_120001" : String).length ∧
      ("20260101_120000" : String) ≠ "20260101_120001" ∧
      quarantine_filename "20260101_120000" "C:/x.txt" ≠
        quarantine_filename "20260101_120001" "C:/x.txt" :=
  ⟨by decide, by decide,
    c8_distinct_timestamps "20260101_120000" "20260101_120001" "C:/x.txt" "C:/x.txt"
      (by decide) (by decide)⟩

theorem fsGet_fsSet (fs : Fs) (p : String) (data : List Nat) :
    fsGet (fsSet fs p data) p = some data := by
  simp [fsGet, fsSet, List.find?_cons]

theorem quarantineLoop_perm (ro : Nat → RemoveOutcome) (filepath qname : String)
    (hp : ∀ a, a < max_retries → ro a = RemoveOutcome.permErr) :
    ∀ (remaining attempt : Nat) (fs store : Fs) (procs killed : List Proc)
      (fca : List Nat),
      attempt + remaining = max_retries → 0 < remaining →
      (quarantineLoop ro filepath qname remaining attempt fs store procs killed
          fca).success = false ∧
        (quarantineLoop ro filepath qname remaining attempt fs store procs killed
          fca).raised = false ∧
        (quarantineLoop ro filepath qname remaining attempt fs store procs killed
          fca).fs = fs ∧
        fsGet (quarantineLoop ro filepath qname remaining attempt fs store procs
          killed fca).store qname = some ((fsGet fs filepath).getD []) := by
  intro remaining
  induction remaining with
  | zero =>
    intro attempt fs store procs killed fca h1 h2
    omega
  | succ n ih =>
    intro attempt fs store procs killed fca h1 h2
    have hm : max_retries = 5 := rfl
    have ha : ro attempt = RemoveOutcome.permErr := hp attempt (by omega)
    by_cases hlast : attempt < max_retries - 1
    · have hn : 0 < n := by
        omega
      rcases Nat.lt_or_ge attempt 2 with h2a | h2a
      · have step : quarantineLoop ro filepath qname (n + 1) attempt fs store procs
            killed fca =
            quarantineLoop ro filepath qname n (attempt + 1) fs
              (fsSet store qname ((fsGet fs filepath).getD [])) procs killed fca := by
          simp only [quarantineLoop, ha]
          rw [if_pos hlast, if_neg (by omega)]
        rw [step]
        exact ih (attempt + 1) fs (fsSet store qname ((fsGet fs filepath).getD []))
          procs killed fca (by omega) hn
      · have step : quarantineLoop ro filepath qname (n + 1) attempt fs store procs
            killed fca =
            quarantineLoop ro filepath qname n (attempt + 1) fs
              (fsSet store qname ((fsGet fs filepath).getD []))
              (force_close_file_handles filepath procs).2.1
              (killed ++ (force_close_file_handles filepath procs).1)
              (fca ++ [attempt + 1]) := by
          simp only [quarantineLoop, ha]
          rw [if_pos hlast, if_pos h2a]
        rw [step]
        exact ih (attempt + 1) fs (fsSet store qname ((fsGet fs filepath).getD []))
          (force_close_file_handles filepath procs).2.1
          (killed ++ (force_close_file_handles filepath procs).1)
          (fca ++ [attempt + 1]) (by omega) hn
    · have step : quarantineLoop ro filepath qname (n + 1) attempt fs store procs
          killed fca =
          ⟨false, false, fs, fsSet store qname ((fsGet fs filepath).getD []),
            procs, killed, fca⟩ := by
        simp only [quarantineLoop, ha]
        rw [if_neg hlast]
      rw [step]
      exact ⟨rfl, rfl, rfl, fsGet_fsSet _ _ _⟩

/-- C2: quarantining an existing file whose removal fails with a
`PermissionError` on all five attempts raises nothing to the caller
(the outer `except` never fires), still persists the sidecar record with
`original_deleted = false`, leaves a byte-identical copy of the file in
the quarantine store under the derived name, and leaves the original file
in place. -/
theorem c2_lock_contention_partial_success (fs store : Fs) (procs : List Proc)
    (ro : Nat → RemoveOutcome) (filepath threat timestamp : String)
    (data : List Nat) (hx : fsGet fs filepath = some data)
    (hp : ∀ a, a < max_retries → ro a = RemoveOutcome.permErr) :
    (quarantine_file fs store procs ro filepath threat timestamp).raised = false ∧
      (quarantine_file fs store procs ro filepath threat timestamp).notFound =
        false ∧
      (quarantine_file fs store procs ro filepath threat timestamp).record =
        some ⟨filepath, basename filepath, threat, timestamp, false⟩ ∧
      fsGet (quarantine_file fs store procs ro filepath threat timestamp).store
        (quarantine_filename timestamp filepath) = some data ∧
      fsGet (quarantine_file fs store procs ro filepath threat timestamp).fs
        filepath = some data := by
  obtain ⟨h1, h2, h3, h4⟩ := quarantineLoop_perm ro filepath
    (quarantine_filename timestamp filepath) hp max_retries 0 fs store procs [] []
    (by omega) (by decide)
  simp only [quarantine_file, hx, h2, Bool.false_eq_true, if_false]
  refine ⟨trivial, trivial, ?_, ?_, ?_⟩
  · rw [h1]
  · rw [h4, hx]
    rfl
  · rw [h3, hx]

/-- Witness for C2: a concrete file locked through all five removal
attempts is copied byte-identically into the store, keeps its original,
gets a sidecar with `original_deleted = false`, and raises nothing. -/
theorem c2_lock_contention_partial_success_witness :
    fsGet [("C:/docs/evil.exe", [77, 90, 1, 2, 3])] "C:/docs/evil.exe" =
        some [77, 90, 1, 2, 3] ∧
      (quarantine_file [("C:/docs/evil.exe", [77, 90, 1, 2, 3])] [] []
          (fun _ => RemoveOutcome.permErr) "C:/docs/evil.exe" "Trojan.Generic"
          "20260101_120000").raised = false ∧
      (quarantine_file [("C:/docs/evil.exe", [77, 90, 1, 2, 3])] [] []
          (fun _ => RemoveOutcome.permErr) "C:/docs/evil.exe" "Trojan.Generic"
          "20260101_120000").record =
        some ⟨"C:/docs/evil.exe", basename "C:/docs/evil.exe", "Trojan.Generic",
          "20260101_120000", false⟩ ∧
      fsGet (quarantine_file [("C:/docs/evil.exe", [77, 90, 1, 2, 3])] [] []
          (fun _ => RemoveOutcome.permErr) "C:/docs/evil.exe" "Trojan.Generic"
          "20260101_120000").store
        (quarantine_filename "20260101_120000" "C:/docs/evil.exe") =
        some [77, 90, 1, 2, 3] ∧
      fsGet (quarantine_file [("C:/docs/evil.exe", [77, 90, 1, 2, 3])] [] []
          (fun _ => RemoveOutcome.permErr) "C:/docs/evil.exe" "Trojan.Generic"
          "20260101_120000").fs "C:/docs/evil.exe" = some [77, 90, 1, 2, 3] := by
  have h := c2_lock_contention_partial_success
    [("C:/docs/evil.exe", [77, 90, 1, 2, 3])] [] []
    (fun _ => RemoveOutcome.permErr) "C:/docs/evil.exe" "Trojan.Generic"
    "20260101_120000" [77, 90, 1, 2, 3] (by decide) (by intro a ha; rfl)
  exact ⟨by decide, h.1, h.2.2.1, h.2.2.2.1, h.2.2.2.2⟩

theorem shouldKill_spec (target : String) (p : Proc)
    (h : shouldKill target p = true) :
    p.openFiles.any (fun f => pyLower f == pyLower target) = true ∧
      criticalProcessNames.contains (pyLower p.pname) = false := by
  simp only [shouldKill, Bool.and_eq_true, Bool.not_eq_true'] at h
  exact h

theorem quarantineLoop_scope (ro : Nat → RemoveOutcome) (filepath qname : String) :
    ∀ (remaining attempt : Nat) (fs store : Fs) (procs killed : List Proc)
      (fca : List Nat),
      (∀ p ∈ killed, shouldKill filepath p = true) →
      (∀ a ∈ fca, 3 ≤ a) →
      (∀ p ∈ (quarantineLoop ro filepath qname remaining attempt fs store procs
          killed fca).killed, shouldKill filepath p = true) ∧
        (∀ a ∈ (quarantineLoop ro filepath qname remaining attempt fs store procs
          killed fca).fca, 3 ≤ a) := by
  intro remaining
  induction remaining with
  | zero =>
    intro attempt fs store procs killed fca hk hf
    exact ⟨hk, hf⟩
  | succ n ih =>
    intro attempt fs store procs killed fca hk hf
    cases hro : ro attempt with
    | ok =>
      have step : quarantineLoop ro filepath qname (n + 1) attempt fs store procs
          killed fca =
          ⟨true, false, fsRemove fs filepath,
            fsSet store qname ((fsGet fs filepath).getD []), procs, killed, fca⟩ := by
        simp only [quarantineLoop, hro]
      rw [step]
      exact ⟨hk, hf⟩
    | permErr =>
      by_cases hlast : attempt < max_retries - 1
      · by_cases h2a : 2 ≤ attempt
        · have step : quarantineLoop ro filepath qname (n + 1) attempt fs store
              procs killed fca =
              quarantineLoop ro filepath qname n (attempt + 1) fs
                (fsSet store qname ((fsGet fs filepath).getD []))
                (force_close_file_handles filepath procs).2.1
                (killed ++ (force_close_file_handles filepath procs).1)
                (fca ++ [attempt + 1]) := by
            simp only [quarantineLoop, hro]
            rw [if_pos hlast, if_pos h2a]
          rw [step]
          apply ih
          · intro p hp
            rcases List.mem_append.mp hp with h | h
            · exact hk p h
            · exact (List.mem_filter.mp h).2
          · intro a ha
            rcases List.mem_append.mp ha with h | h
            · exact hf a h
            · have : a = attempt + 1 := by simpa using h
              omega
        · have step : quarantineLoop ro filepath qname (n + 1) attempt fs store
              procs killed fca =
              quarantineLoop ro filepath qname n (attempt + 1) fs
                (fsSet store qname ((fsGet fs filepath).getD [])) procs killed
                fca := by
            simp only [quarantineLoop, hro]
            rw [if_pos hlast, if_neg h2a]
          rw [step]
          exact ih _ _ _ _ _ _ hk hf
      · have step : quarantineLoop ro filepath qname (n + 1) attempt fs store
            procs killed fca =
            ⟨false, false, fs, fsSet store qname ((fsGet fs filepath).getD []),
              procs, killed, fca⟩ := by
          simp only [quarantineLoop, hro]
          rw [if_neg hlast]
        rw [step]
        exact ⟨hk, hf⟩
    | otherErr =>
      by_cases hlast : attempt < max_retries - 1
      · have step : quarantineLoop ro filepath qname (n + 1) attempt fs store
            procs killed fca =
            quarantineLoop ro filepath qname n (attempt + 1) fs
              (fsSet store qname ((fsGet fs filepath).getD [])) procs killed
              fca := by
          simp only [quarantineLoop, hro]
          rw [if_pos hlast]
        rw [step]
        exact ih _ _ _ _ _ _ hk hf
      · have step : quarantineLoop ro filepath qname (n + 1) attempt fs store
            procs killed fca =
            ⟨false, true, fs, fsSet store qname ((fsGet fs filepath).getD []),
              procs, killed, fca⟩ := by
          simp only [quarantineLoop, hro]
          rw [if_neg hlast]
        rw [step]
        exact ⟨hk, hf⟩

/-- C4: forced handle release inside `quarantine_file` is precisely
scoped.  Every process it terminates holds an open handle on the one
target path (case-insensitive absolute-path comparison, line 1439) and
has a name outside the critical-OS-process deny-list (line 1443); no
process without a handle on that path is ever terminated; and
`force_close_file_handles` runs only on the 3rd and later removal
attempts (`attempt >= 2` at line 1501, 1-based attempts ≥ 3). -/
theorem c4_forced_release_scoped (fs store : Fs) (procs : List Proc)
    (ro : Nat → RemoveOutcome) (filepath threat timestamp : String) :
    (∀ p ∈ (quarantine_file fs store procs ro filepath threat timestamp).killed,
      p.openFiles.any (fun f => pyLower f == pyLower filepath) = true ∧
        criticalProcessNames.contains (pyLower p.pname) = false) ∧
      (∀ a ∈ (quarantine_file fs store procs ro filepath threat timestamp).fca,
        3 ≤ a) := by
  cases hfs : fsGet fs filepath with
  | none => simp [quarantine_file, hfs]
  | some d =>
    have hscope := quarantineLoop_scope ro filepath
      (quarantine_filename timestamp filepath) max_retries 0 fs store procs [] []
      (by intro p hp; simp at hp) (by intro a ha; simp at ha)
    simp only [quarantine_file, hfs]
    constructor
    · intro p hp
      apply shouldKill_spec
      apply hscope.1 p
      revert hp
      split <;> (intro hp; simpa using hp)
    · intro a ha
      apply hscope.2 a
      revert ha
      split <;> (intro ha; simpa using ha)

/-- Witness for C4: with one process holding a handle on the locked target
and one unrelated process, only the handle-holder is killed, and force
close ran only on attempts 3 and later. -/
theorem c4_forced_release_scoped_witness :
    (⟨7, "notepad.exe", ["C:/docs/evil.exe"]⟩ : Proc) ∈
        (quarantine_file [("C:/docs/evil.exe", [1])] []
          [⟨7, "notepad.exe", ["C:/docs/evil.exe"]⟩,
            ⟨8, "other.exe", ["C:/other/y.txt"]⟩]
          (fun _ => RemoveOutcome.permErr) "C:/docs/evil.exe" "Trojan.Generic"
          "20260101_120000").killed ∧
      ((⟨7, "notepad.exe", ["C:/docs/evil.exe"]⟩ : Proc).openFiles.any
          (fun f => pyLower f == pyLower "C:/docs/evil.exe") = true ∧
        criticalProcessNames.contains
          (pyLower (⟨7, "notepad.exe", ["C:/docs/evil.exe"]⟩ : Proc).pname) =
          false) ∧
      (⟨8, "other.exe", ["C:/other/y.txt"]⟩ : Proc) ∉
        (quarantine_file [("C:/docs/evil.exe", [1])] []
          [⟨7, "notepad.exe", ["C:/docs/evil.exe"]⟩,
            ⟨8, "other.exe", ["C:/other/y.txt"]⟩]
          (fun _ => RemoveOutcome.permErr) "C:/docs/evil.exe" "Trojan.Generic"
          "20260101_120000").killed ∧
      (3 : Nat) ∈ (quarantine_file [("C:/docs/evil.exe", [1])] []
          [⟨7, "notepad.exe", ["C:/docs/evil.exe"]⟩,
            ⟨8, "other.exe", ["C:/other/y.txt"]⟩]
          (fun _ => RemoveOutcome.permErr) "C:/docs/evil.exe" "Trojan.Generic"
          "20260101_120000").fca ∧
      3 ≤ 3 := by
  refine ⟨by decide, ?_, by decide, by decide, ?_⟩
  · exact (c4_forced_release_scoped [("C:/docs/evil.exe", [1])] []
      [⟨7, "notepad.exe", ["C:/docs/evil.exe"]⟩,
        ⟨8, "other.exe", ["C:/other/y.txt"]⟩]
      (fun _ => RemoveOutcome.permErr) "C:/docs/evil.exe" "Trojan.Generic"
      "20260101_120000").1 ⟨7, "notepad.exe", ["C:/docs/evil.exe"]⟩ (by decide)
  · exact (c4_forced_release_scoped [("C:/docs/evil.exe", [1])] []
      [⟨7, "notepad.exe", ["C:/docs/evil.exe"]⟩,
        ⟨8, "other.exe", ["C:/other/y.txt"]⟩]
      (fun _ => RemoveOutcome.permErr) "C:/docs/evil.exe" "Trojan.Generic"
      "20260101_120000").2 3 (by decide)

theorem workerStep_codes (s : BatchSys) : (workerStep s).codes = s.codes := by
  unfold workerStep
  split <;> rfl

theorem workerStep_autoQ (s : BatchSys) : (workerStep s).autoQ = s.autoQ := by
  unfold workerStep
  split <;> rfl

theorem consumerStep_codes (s : BatchSys) : (consumerStep s).codes = s.codes := by
  unfold consumerStep
  split <;> rfl

theorem consumerStep_autoQ (s : BatchSys) : (consumerStep s).autoQ = s.autoQ := by
  unfold consumerStep
  split <;> rfl

theorem execFold_codes : ∀ (sched : List Bool) (s : BatchSys),
    (sched.foldl (fun s b => if b then workerStep s else consumerStep s) s).codes =
        s.codes ∧
      (sched.foldl (fun s b => if b then workerStep s else consumerStep s)
        s).autoQ = s.autoQ := by
  intro sched
  induction sched with
  | nil => intro s; exact ⟨rfl, rfl⟩
  | cons b rest ih =>
    intro s
    rw [List.foldl_cons]
    cases b
    · have h := ih (consumerStep s)
      exact ⟨h.1.trans (consumerStep_codes s), h.2.trans (consumerStep_autoQ s)⟩
    · have h := ih (workerStep s)
      exact ⟨h.1.trans (workerStep_codes s), h.2.trans (workerStep_autoQ s)⟩

theorem sysInv_workerStep (s : BatchSys) (h : SysInv s) : SysInv (workerStep s) := by
  obtain ⟨h1, h2, h3, h4, h5⟩ := h
  unfold workerStep
  split
  · dsimp only [SysInv]
    refine ⟨?_, ?_, ?_, ?_, ?_⟩
    · intro i hi
      simp only [List.mem_append, List.mem_singleton] at hi
      rcases hi with hi | hi
      · have := h1 i hi
        omega
      · omega
    · intro i hi
      simp only [List.mem_append, List.mem_cons, List.mem_singleton,
        List.not_mem_nil] at hi
      rcases hi with hi | hi | hi | hi
      · have := h2 i hi
        omega
      · exact absurd hi (by simp)
      · exact absurd hi (by simp)
      · exact absurd hi (by simp)
    · intro i hi1 hi2
      rcases Nat.lt_or_ge i (s.scanned + 1) with hl | hl
      · have := h3 i hi1 (by omega)
        simp only [List.mem_append]
        exact Or.inl this
      · have hieq : i = s.scanned + 1 := by omega
        subst hieq
        simp only [List.mem_append, List.mem_cons, List.mem_singleton]
        exact Or.inr (Or.inl rfl)
    · intro i hi
      simp only [List.mem_append, List.mem_cons, List.mem_singleton,
        List.not_mem_nil] at hi
      rcases hi with hi | hi | hi | hi
      · obtain ⟨ha, ht, hh⟩ := h4 i hi
        exact ⟨ha, ht, by simp only [List.mem_append]; exact Or.inl hh⟩
      · exact absurd hi (by simp)
      · exact absurd hi (by simp)
      · exact absurd hi (by simp)
    · intro i hi ha ht
      simp only [List.mem_append, List.mem_cons, List.mem_singleton,
        List.not_mem_nil] at hi
      rcases hi with hi | hi | hi | hi
      · have := h5 i hi ha ht
        simp only [List.mem_append]
        exact Or.inl this
      · exact absurd hi (by simp)
      · exact absurd hi (by simp)
      · exact absurd hi (by simp)
  · exact ⟨h1, h2, h3, h4, h5⟩

theorem sysInv_consumerStep (s : BatchSys) (h : SysInv s) :
    SysInv (consumerStep s) := by
  obtain ⟨h1, h2, h3, h4, h5⟩ := h
  unfold consumerStep
  rcases hq : s.queue with _ | ⟨i, rest⟩
  · exact ⟨h1, h2, h3, h4, h5⟩
  · have hib : 1 ≤ i ∧ i ≤ s.scanned :=
      h1 i (by rw [hq]; exact List.mem_cons_self i rest)
    dsimp only [SysInv]
    by_cases hcond : (s.autoQ && isThreatCode (s.codes.getD (i - 1) (-1))) = true
    · rw [if_pos hcond]
      rw [Bool.and_eq_true] at hcond
      obtain ⟨hA, hT⟩ := hcond
      refine ⟨?_, ?_, ?_, ?_, ?_⟩
      · intro j hj
        exact h1 j (by rw [hq]; exact List.mem_cons_of_mem i hj)
      · intro j hj
        simp only [List.mem_append, List.mem_singleton] at hj
        rcases hj with (hj | hj) | hj
        · exact h2 j hj
        · have hji : j = i := by simpa using hj
          subst hji
          exact hib
        · exact absurd hj (by simp)
      · intro j hj1 hj2
        have := h3 j hj1 hj2
        simp only [List.mem_append]
        exact Or.inl (Or.inl this)
      · intro j hj
        simp only [List.mem_append, List.mem_singleton] at hj
        rcases hj with (hj | hj) | hj
        · obtain ⟨ha, ht, hh⟩ := h4 j hj
          exact ⟨ha, ht,
            by simp only [List.mem_append]; exact Or.inl (Or.inl hh)⟩
        · exact absurd hj (by simp)
        · have hji : j = i := by simpa using hj
          subst hji
          refine ⟨hA, hT, ?_⟩
          simp only [List.mem_append, List.mem_singleton]
          exact Or.inl (Or.inr trivial)
      · intro j hj ha ht
        simp only [List.mem_append, List.mem_singleton] at hj
        rcases hj with (hj | hj) | hj
        · have := h5 j hj ha ht
          simp only [List.mem_append]
          exact Or.inl (Or.inl this)
        · have hji : j = i := by simpa using hj
          subst hji
          simp only [List.mem_append, List.mem_singleton]
          exact Or.inr trivial
        · exact absurd hj (by simp)
    · rw [if_neg hcond]
      refine ⟨?_, ?_, ?_, ?_, ?_⟩
      · intro j hj
        exact h1 j (by rw [hq]; exact List.mem_cons_of_mem i hj)
      · intro j hj
        simp only [List.mem_append, List.mem_singleton, List.append_nil] at hj
        rcases hj with hj | hj
        · exact h2 j hj
        · have hji : j = i := by simpa using hj
          subst hji
          exact hib
      · intro j hj1 hj2
        have := h3 j hj1 hj2
        simp only [List.mem_append, List.append_nil]
        exact Or.inl this
      · intro j hj
        simp only [List.mem_append, List.mem_singleton, List.append_nil] at hj
        rcases hj with hj | hj
        · obtain ⟨ha, ht, hh⟩ := h4 j hj
          exact ⟨ha, ht,
            by simp only [List.mem_append, List.append_nil]; exact Or.inl hh⟩
        · exact absurd hj (by simp)
      · intro j hj ha ht
        simp only [List.mem_append, List.mem_singleton, List.append_nil] at hj
        rcases hj with hj | hj
        · have := h5 j hj ha ht
          simp only [List.mem_append, List.append_nil]
          exact Or.inl this
        · have hji : j = i := by simpa using hj
          subst hji
          exact absurd (by rw [ha, ht]; rfl) hcond

theorem sysInv_init (codes : List Int) (autoQ : Bool) :
    SysInv (initBatchSys codes autoQ) := by
  refine ⟨?_, ?_, ?_, ?_, ?_⟩
  · intro i hi
    simp [initBatchSys] at hi
  · intro i hi
    simp [initBatchSys] at hi
  · intro i h1 h2
    simp only [initBatchSys] at h2
    omega
  · intro i hi
    simp [initBatchSys] at hi
  · intro i hi
    simp [initBatchSys] at hi

theorem execFold_inv : ∀ (sched : List Bool) (s : BatchSys), SysInv s →
    SysInv (sched.foldl (fun s b => if b then workerStep s else consumerStep s)
      s) := by
  intro sched
  induction sched with
  | nil => intro s h; exact h
  | cons b rest ih =>
    intro s h
    rw [List.foldl_cons]
    cases b
    · exact ih _ (sysInv_consumerStep s h)
    · exact ih _ (sysInv_workerStep s h)

/-- C5 counterexample: in the valid interleaving where the worker thread
runs twice before the GUI thread drains its event queue — always possible,
because the cross-thread queued signal `emit` returns immediately — the
scan of item 2 occurs strictly before the quarantine of the malicious item
1, with auto-quarantine enabled; so the quarantine of an item is NOT
invoked synchronously before the scan of the next item starts. -/
theorem c5_counterexample :
    (execSched [1, 0] true [true, true, false, false]).trace =
        [BatchAction.scanItem 1 1, BatchAction.emitResult 1,
         BatchAction.scanItem 2 0, BatchAction.emitResult 2,
         BatchAction.handleResult 1, BatchAction.quarantineCall 1,
         BatchAction.handleResult 2] ∧
      (execSched [1, 0] true [true, true, false, false]).trace.indexOf
          (BatchAction.scanItem 2 0) <
        (execSched [1, 0] true [true, true, false, false]).trace.indexOf
          (BatchAction.quarantineCall 1) := by
  refine ⟨by decide, by decide⟩

/-- C5 amended: auto-quarantine is invoked by the GUI consumer when it
processes an item's queued result event, not by the orchestrator before
the next item: in every interleaving, a quarantine call for item `i`
occurs exactly when the GUI has handled item `i`'s result with the
checkbox on and a verdict code in {1, 2, 3}, and every quarantine call is
for an item whose scan has already completed (nothing is quarantined
before — or without — its own scan; but later scans may precede it). -/
theorem c5_consumer_quarantine (codes : List Int) (autoQ : Bool)
    (sched : List Bool) (i : Nat) :
    (BatchAction.quarantineCall i ∈ (execSched codes autoQ sched).trace →
      autoQ = true ∧ isThreatCode (codes.getD (i - 1) (-1)) = true ∧
        BatchAction.handleResult i ∈ (execSched codes autoQ sched).trace ∧
        BatchAction.scanItem i (codes.getD (i - 1) (-1)) ∈
          (execSched codes autoQ sched).trace) ∧
      (BatchAction.handleResult i ∈ (execSched codes autoQ sched).trace →
        autoQ = true → isThreatCode (codes.getD (i - 1) (-1)) = true →
        BatchAction.quarantineCall i ∈ (execSched codes autoQ sched).trace) := by
  have hinv : SysInv (execSched codes autoQ sched) :=
    execFold_inv sched (initBatchSys codes autoQ) (sysInv_init codes autoQ)
  have hca : (execSched codes autoQ sched).codes = codes ∧
      (execSched codes autoQ sched).autoQ = autoQ :=
    execFold_codes sched (initBatchSys codes autoQ)
  obtain ⟨h1, h2, h3, h4, h5⟩ := hinv
  rw [hca.1, hca.2] at h4 h5
  constructor
  · intro hq
    obtain ⟨hA, hT, hH⟩ := h4 i hq
    refine ⟨hA, hT, hH, ?_⟩
    have hb := h2 i hH
    have := h3 i hb.1 hb.2
    rw [hca.1] at this
    exact this
  · intro hh hA hT
    exact h5 i hh hA hT

/-- Witness for the amended C5: in a concrete interleaving the GUI handles
malicious item 1's result and the quarantine call for item 1 appears in
the trace. -/
theorem c5_consumer_quarantine_witness :
    BatchAction.handleResult 1 ∈
        (execSched [1, 0] true [true, true, false, false]).trace ∧
      isThreatCode (([1, 0] : List Int).getD 0 (-1)) = true ∧
      BatchAction.quarantineCall 1 ∈
        (execSched [1, 0] true [true, true, false, false]).trace :=
  ⟨by decide, by decide,
    (c5_consumer_quarantine [1, 0] true [true, true, false, false] 1).2
      (by decide) rfl (by decide)⟩
